import Mathlib

/-!
Verification development for the receipt-parsing repository.

Shallow embedding conventions:
* Python strings are modelled as `List Char`; `str.lower` as mapping
  `Char.toLower`, and the Python substring test `a in b` as list infixity.
* A pandas rule table is a `List RuleRow`; a missing (NaN) cell is `none`.
* `re.search` is an external library call, so it is abstracted as a
  parameter `reSearch : List Char → List Char → Option (List Char)` taking
  the pattern and the line, and returning `some` of the match group text
  when a match exists, `none` otherwise.
* The guided parser object is a structure holding the fields set by its
  constructor (`lines`, `insurer`, `rules`).
* The inventory CSV is a `List InvRow`; `append_to_inventory` returns the
  stored table together with the `added` flag.
-/

/-- Python `str.lower()` on a string, modelled character-wise. -/
def lowerStr (s : List Char) : List Char := s.map Char.toLower

/-- The Python substring test `needle in hay`. -/
def pySubstr (needle hay : List Char) : Bool := decide (needle <:+: hay)

/-- Characters removed by Python `str.strip()` (ASCII whitespace). -/
def pyIsSpace (c : Char) : Bool :=
  c == ' ' || c == '\t' || c == '\n' || c == '\r' ||
    c == Char.ofNat 11 || c == Char.ofNat 12

/-- Python `str.strip()`: drop whitespace from both ends. -/
def pyStrip (l : List Char) : List Char :=
  (l.dropWhile pyIsSpace).rdropWhile pyIsSpace

/-- One row of the parsing-rules spreadsheet loaded by `RuleLoader`
(`rule_loader.py`).  The `insurer` and `notes` cells may be missing
(pandas NaN), modelled by `Option`. -/
structure RuleRow where
  insurer : Option (List Char)
  field : List Char
  anchorPhrase : List Char
  regexPattern : List Char
  notes : Option (List Char)
deriving DecidableEq

namespace RuleLoader

/-- The row filter used by `get_rules_for_insurer`:
`self.df["Insurer"].str.lower() == insurer_name.lower()`.
A NaN `Insurer` cell compares unequal to any string. -/
def insurerMatchesRow (name : List Char) (r : RuleRow) : Bool :=
  match r.insurer with
  | some i => lowerStr i == lowerStr name
  | none => false

/-- Model of `RuleLoader.get_rules_for_insurer` (`rule_loader.py` lines 19-24):
filter the table on the case-insensitive insurer match; `None` when the
filtered frame is empty, otherwise the matching records in table order. -/
def get_rules_for_insurer (df : List RuleRow) (name : List Char) :
    Option (List RuleRow) :=
  let rules := df.filter (insurerMatchesRow name)
  if rules.isEmpty then none else some rules

/-- Model of `RuleLoader.validate_insurer` (`rule_loader.py` lines 15-17):
`insurer_name.lower() in [i.lower() for i in df["Insurer"].dropna().unique()]`.
`dropna` is `filterMap`, `unique` is `dedup`. -/
def validate_insurer (df : List RuleRow) (name : List Char) : Bool :=
  (((df.filterMap RuleRow.insurer).dedup).map lowerStr).contains (lowerStr name)

end RuleLoader

/-- The line list built by the `GuidedParser` constructor
(`guided_parser.py` line 6):
`[line.strip() for line in ocr_text.split("\n") if line.strip()]`. -/
def parserLines (ocr : List Char) : List (List Char) :=
  ((ocr.splitOn '\n').map pyStrip).filter (fun l => !l.isEmpty)

/-- The `GuidedParser` object state after `__init__`. -/
structure GuidedParser where
  lines : List (List Char)
  insurer : List Char
  rules : Option (List RuleRow)

/-- Model of `GuidedParser.__init__` (`guided_parser.py` lines 5-8). -/
def GuidedParser.init (ocr insurer : List Char) (df : List RuleRow) :
    GuidedParser :=
  { lines := parserLines ocr
    insurer := insurer
    rules := RuleLoader.get_rules_for_insurer df insurer }

/-- The anchor test of `extract_from_lines` (`guided_parser.py` line 31):
`anchor.lower() in line.lower()`. -/
def anchorInLine (anchor line : List Char) : Bool :=
  pySubstr (lowerStr anchor) (lowerStr line)

/-- The loop of `GuidedParser.extract_from_lines`
(`guided_parser.py` lines 29-34): scan the lines top to bottom; on the
first line containing the anchor, return the regex match group if the
regex matches, the whole line otherwise; `None` when no line matches. -/
def extractScan (reSearch : List Char → List Char → Option (List Char)) :
    List (List Char) → List Char → List Char → Option (List Char)
  | [], _, _ => none
  | line :: rest, anchor, pattern =>
    if anchorInLine anchor line then some ((reSearch pattern line).getD line)
    else extractScan reSearch rest anchor pattern

/-- Model of `GuidedParser.extract_from_lines` as a method on the parser state. -/
def GuidedParser.extract_from_lines
    (reSearch : List Char → List Char → Option (List Char))
    (p : GuidedParser) (anchor pattern : List Char) : Option (List Char) :=
  extractScan reSearch p.lines anchor pattern

/-- One value of the `results` dict of `extract_fields`:
`{"value": value, "source": anchor, "notes": notes}`. -/
structure FieldResult where
  value : Option (List Char)
  source : List Char
  notes : List Char
deriving DecidableEq

/-- The return value of `GuidedParser.extract_fields`: either the
`{"error": ...}` dict or the `results` dict (modelled as the association
list of its insertions, in rule order). -/
inductive ExtractOutput where
  | errorObj (msg : List Char)
  | fields (results : List (List Char × FieldResult))
deriving DecidableEq

/-- The f-string `f"Insurer '{self.insurer}' not supported."`
(`guided_parser.py` line 12). -/
def notSupportedMsg (insurer : List Char) : List Char :=
  ("Insurer ".toList ++ [Char.ofNat 39]) ++ insurer ++
    ([Char.ofNat 39] ++ " not supported.".toList)

/-- The body of the `for rule in self.rules` loop of `extract_fields`
(`guided_parser.py` lines 15-26): one insertion
`results[field] = {"value": value, "source": anchor, "notes": notes}`,
with `notes = rule.get("Notes", "")`. -/
def fieldEntry (reSearch : List Char → List Char → Option (List Char))
    (p : GuidedParser) (rule : RuleRow) : List Char × FieldResult :=
  (rule.field,
    { value :=
        GuidedParser.extract_from_lines reSearch p
          rule.anchorPhrase rule.regexPattern
      source := rule.anchorPhrase
      notes := rule.notes.getD [] })

/-- Model of `GuidedParser.extract_fields` (`guided_parser.py` lines 10-27).
`if not self.rules` is taken both by `None` and by an empty rule list. -/
def GuidedParser.extract_fields
    (reSearch : List Char → List Char → Option (List Char))
    (p : GuidedParser) : ExtractOutput :=
  match p.rules with
  | none => .errorObj (notSupportedMsg p.insurer)
  | some [] => .errorObj (notSupportedMsg p.insurer)
  | some rs => .fields (rs.map (fieldEntry reSearch p))

/-- One row of the master-inventory CSV built by `flatten_result`
(`claude_parser_app.py`): `system_date`, `system_time` and `filename`
are always strings; the fields taken from the parsed JSON may be `None`. -/
structure InvRow where
  system_date : List Char
  system_time : List Char
  date : Option (List Char)
  filename : List Char
  vendor_name : Option (List Char)
  total_amount : Option (List Char)
  invoice_number : Option (List Char)
deriving DecidableEq

/-- Model of `append_to_inventory` (`claude_parser_app.py` lines 208-216): when the
loaded inventory is non-empty and already holds both the new row's
filename among its filename values and its system_date among its
system_date values, nothing is saved and `(df, False)` is returned;
otherwise the row is concatenated at the end, saved, and `(df', True)`
is returned.  The first component is the stored inventory afterwards. -/
def append_to_inventory (df : List InvRow) (row : InvRow) :
    List InvRow × Bool :=
  if !df.isEmpty && (df.map InvRow.filename).contains row.filename &&
      (df.map InvRow.system_date).contains row.system_date then
    (df, false)
  else
    (df ++ [row], true)

/-- Two inventory rows collide when they share both the filename and the
system_date. -/
def sameKey (r₁ r₂ : InvRow) : Prop :=
  r₁.filename = r₂.filename ∧ r₁.system_date = r₂.system_date

instance : DecidableRel sameKey := fun r₁ r₂ => by
  unfold sameKey; infer_instance

/-- The inventory invariant of C10: no two rows share both keys. -/
def inventoryKeyFree (df : List InvRow) : Prop :=
  df.Pairwise (fun a b => ¬sameKey a b)

instance (df : List InvRow) : Decidable (inventoryKeyFree df) := by
  unfold inventoryKeyFree; infer_instance

/-! ### Helper lemmas -/

theorem contains_iff_mem {α : Type} [BEq α] [LawfulBEq α] (l : List α) (a : α) :
    l.contains a = true ↔ a ∈ l := by
  simp [List.contains]

theorem extractScan_eq_find
    (reSearch : List Char → List Char → Option (List Char))
    (lines : List (List Char)) (anchor pattern : List Char) :
    extractScan reSearch lines anchor pattern =
      (lines.find? (anchorInLine anchor)).map
        (fun l => (reSearch pattern l).getD l) := by
  induction lines with
  | nil => rfl
  | cons line rest ih =>
    by_cases h : anchorInLine anchor line
    · rw [extractScan, if_pos h, List.find?_cons_of_pos _ h]
      rfl
    · rw [extractScan, if_neg h, List.find?_cons_of_neg _ h, ih]

theorem pyStrip_idem (l : List Char) : pyStrip (pyStrip l) = pyStrip l := by
  unfold pyStrip
  have h1 : ((l.dropWhile pyIsSpace).rdropWhile pyIsSpace).dropWhile pyIsSpace
      = (l.dropWhile pyIsSpace).rdropWhile pyIsSpace := by
    rw [List.dropWhile_eq_self_iff]
    intro hl
    have hpre := List.rdropWhile_prefix pyIsSpace (l.dropWhile pyIsSpace)
    have hlen : 0 < (l.dropWhile pyIsSpace).length :=
      lt_of_lt_of_le hl hpre.length_le
    have hnot := List.dropWhile_get_zero_not pyIsSpace l hlen
    have heq : ((l.dropWhile pyIsSpace).rdropWhile pyIsSpace).get ⟨0, hl⟩
        = (l.dropWhile pyIsSpace).get ⟨0, hlen⟩ := by
      simp only [List.get_eq_getElem]
      exact hpre.getElem hl
    rw [heq]
    exact hnot
  rw [h1, List.rdropWhile_idempotent]

/-! ### Claims -/

/-- C1: if some line of the parser's line list contains the anchor phrase
as a case-insensitive substring, and the regex search produces a match
within the first such line, then `extract_from_lines` returns the match
text, not the full line. -/
theorem C1_extract_returns_regex_match
    (reSearch : List Char → List Char → Option (List Char))
    (ocr insurer anchor pattern l m : List Char) (df : List RuleRow)
    (hfind : (GuidedParser.init ocr insurer df).lines.find?
        (anchorInLine anchor) = some l)
    (hmatch : reSearch pattern l = some m) :
    GuidedParser.extract_from_lines reSearch (GuidedParser.init ocr insurer df)
      anchor pattern = some m := by
  unfold GuidedParser.extract_from_lines
  rw [extractScan_eq_find, hfind]
  simp [hmatch]

theorem C1_extract_returns_regex_match_witness :
    GuidedParser.extract_from_lines (fun _ _ => some "12.30".toList)
      (GuidedParser.init "Vendor: ACME\n Total: RM 12.30 \n".toList
        "acme".toList [])
      "total".toList "pat".toList = some "12.30".toList :=
  C1_extract_returns_regex_match (fun _ _ => some "12.30".toList)
    "Vendor: ACME\n Total: RM 12.30 \n".toList "acme".toList
    "total".toList "pat".toList "Total: RM 12.30".toList "12.30".toList []
    (by decide) rfl

/-- C2: if the first line containing the anchor phrase (case-insensitive
substring) has no match of the regex pattern, then `extract_from_lines`
returns that full line as stored in the parser's line list. -/
theorem C2_extract_falls_back_to_full_line
    (reSearch : List Char → List Char → Option (List Char))
    (ocr insurer anchor pattern l : List Char) (df : List RuleRow)
    (hfind : (GuidedParser.init ocr insurer df).lines.find?
        (anchorInLine anchor) = some l)
    (hnomatch : reSearch pattern l = none) :
    GuidedParser.extract_from_lines reSearch (GuidedParser.init ocr insurer df)
      anchor pattern = some l := by
  unfold GuidedParser.extract_from_lines
  rw [extractScan_eq_find, hfind]
  simp [hnomatch]

theorem C2_extract_falls_back_to_full_line_witness :
    GuidedParser.extract_from_lines (fun _ _ => none)
      (GuidedParser.init "Vendor: ACME\n Total: RM 12.30 \n".toList
        "acme".toList [])
      "total".toList "pat".toList = some "Total: RM 12.30".toList :=
  C2_extract_falls_back_to_full_line (fun _ _ => none)
    "Vendor: ACME\n Total: RM 12.30 \n".toList "acme".toList
    "total".toList "pat".toList "Total: RM 12.30".toList []
    (by decide) rfl

/-- C3: if no line of the parser's line list contains the rule's anchor
phrase as a case-insensitive substring, then `extract_from_lines` returns
`None`, and the entry `extract_fields` emits for that rule carries the
value `None`. -/
theorem C3_no_anchor_gives_none
    (reSearch : List Char → List Char → Option (List Char))
    (ocr insurer : List Char) (df : List RuleRow)
    (rs : List RuleRow) (rule : RuleRow)
    (hfind : (GuidedParser.init ocr insurer df).lines.find?
        (anchorInLine rule.anchorPhrase) = none)
    (hrules : (GuidedParser.init ocr insurer df).rules = some rs)
    (hmem : rule ∈ rs) :
    GuidedParser.extract_from_lines reSearch (GuidedParser.init ocr insurer df)
        rule.anchorPhrase rule.regexPattern = none
    ∧ GuidedParser.extract_fields reSearch (GuidedParser.init ocr insurer df)
        = .fields (rs.map (fieldEntry reSearch (GuidedParser.init ocr insurer df)))
    ∧ fieldEntry reSearch (GuidedParser.init ocr insurer df) rule
        = (rule.field, ⟨none, rule.anchorPhrase, rule.notes.getD []⟩)
    ∧ (rule.field, (⟨none, rule.anchorPhrase, rule.notes.getD []⟩ : FieldResult))
        ∈ rs.map (fieldEntry reSearch (GuidedParser.init ocr insurer df)) := by
  have hval : GuidedParser.extract_from_lines reSearch
      (GuidedParser.init ocr insurer df)
      rule.anchorPhrase rule.regexPattern = none := by
    unfold GuidedParser.extract_from_lines
    rw [extractScan_eq_find, hfind]
    rfl
  have hentry : fieldEntry reSearch (GuidedParser.init ocr insurer df) rule
      = (rule.field, ⟨none, rule.anchorPhrase, rule.notes.getD []⟩) := by
    unfold fieldEntry
    rw [hval]
  refine ⟨hval, ?_, hentry, ?_⟩
  · unfold GuidedParser.extract_fields
    rw [hrules]
    cases rs with
    | nil => exact absurd hmem (List.not_mem_nil rule)
    | cons a t => rfl
  · exact List.mem_map.mpr ⟨rule, hmem, hentry⟩

theorem C3_no_anchor_gives_none_witness :
    GuidedParser.extract_from_lines (fun _ _ => none)
        (GuidedParser.init "Vendor: ACME".toList "ACME".toList
          [⟨some "acme".toList, "Total".toList, "total".toList,
            "pat".toList, none⟩])
        "total".toList "pat".toList = none
    ∧ GuidedParser.extract_fields (fun _ _ => none)
        (GuidedParser.init "Vendor: ACME".toList "ACME".toList
          [⟨some "acme".toList, "Total".toList, "total".toList,
            "pat".toList, none⟩])
        = .fields ([⟨some "acme".toList, "Total".toList, "total".toList,
            "pat".toList, none⟩].map (fieldEntry (fun _ _ => none)
              (GuidedParser.init "Vendor: ACME".toList "ACME".toList
                [⟨some "acme".toList, "Total".toList, "total".toList,
                  "pat".toList, none⟩])))
    ∧ fieldEntry (fun _ _ => none)
        (GuidedParser.init "Vendor: ACME".toList "ACME".toList
          [⟨some "acme".toList, "Total".toList, "total".toList,
            "pat".toList, none⟩])
        ⟨some "acme".toList, "Total".toList, "total".toList,
          "pat".toList, none⟩
        = ("Total".toList, ⟨none, "total".toList, []⟩)
    ∧ ("Total".toList, (⟨none, "total".toList, []⟩ : FieldResult))
        ∈ [⟨some "acme".toList, "Total".toList, "total".toList,
            "pat".toList, none⟩].map (fieldEntry (fun _ _ => none)
              (GuidedParser.init "Vendor: ACME".toList "ACME".toList
                [⟨some "acme".toList, "Total".toList, "total".toList,
                  "pat".toList, none⟩])) :=
  C3_no_anchor_gives_none (fun _ _ => none) "Vendor: ACME".toList
    "ACME".toList
    [⟨some "acme".toList, "Total".toList, "total".toList, "pat".toList, none⟩]
    [⟨some "acme".toList, "Total".toList, "total".toList, "pat".toList, none⟩]
    ⟨some "acme".toList, "Total".toList, "total".toList, "pat".toList, none⟩
    (by decide) (by decide) (by decide)

/-- C4: for an insurer with zero configured rules (the rule loader yields
no rows), `extract_fields` returns the error object whose message names
the unsupported insurer, rather than raising. -/
theorem C4_unsupported_insurer_error
    (reSearch : List Char → List Char → Option (List Char))
    (ocr insurer : List Char) (df : List RuleRow)
    (h : RuleLoader.get_rules_for_insurer df insurer = none) :
    GuidedParser.extract_fields reSearch (GuidedParser.init ocr insurer df)
        = .errorObj (notSupportedMsg insurer)
    ∧ insurer <:+: notSupportedMsg insurer := by
  constructor
  · unfold GuidedParser.extract_fields
    have hr : (GuidedParser.init ocr insurer df).rules = none := h
    rw [hr]
    rfl
  · exact ⟨"Insurer ".toList ++ [Char.ofNat 39],
      [Char.ofNat 39] ++ " not supported.".toList,
      by simp [notSupportedMsg]⟩

theorem C4_unsupported_insurer_error_witness :
    GuidedParser.extract_fields (fun _ _ => none)
        (GuidedParser.init "Vendor: ACME".toList "zzz".toList [])
        = .errorObj (notSupportedMsg "zzz".toList)
    ∧ "zzz".toList <:+: notSupportedMsg "zzz".toList :=
  C4_unsupported_insurer_error (fun _ _ => none) "Vendor: ACME".toList
    "zzz".toList [] (by decide)

/-- C5: anchor matching is case-insensitive: two anchors with the same
lowercasing yield the same `extract_from_lines` result, and a line is
selected exactly when the lowercased anchor is a substring of the
lowercased line. -/
theorem C5_anchor_case_insensitive
    (reSearch : List Char → List Char → Option (List Char))
    (p : GuidedParser) (a₁ a₂ anchor line pattern : List Char)
    (h : lowerStr a₁ = lowerStr a₂) :
    GuidedParser.extract_from_lines reSearch p a₁ pattern
        = GuidedParser.extract_from_lines reSearch p a₂ pattern
    ∧ (anchorInLine anchor line = true ↔ lowerStr anchor <:+: lowerStr line) := by
  constructor
  · unfold GuidedParser.extract_from_lines
    rw [extractScan_eq_find, extractScan_eq_find]
    have hfn : anchorInLine a₁ = anchorInLine a₂ := by
      funext lx
      unfold anchorInLine
      rw [h]
    rw [hfn]
  · unfold anchorInLine pySubstr
    exact decide_eq_true_iff

theorem C5_anchor_case_insensitive_witness :
    GuidedParser.extract_from_lines (fun _ _ => none)
        (GuidedParser.init "RM 5\nTotal: RM 5".toList "x".toList [])
        "TOTAL".toList "p".toList
      = GuidedParser.extract_from_lines (fun _ _ => none)
        (GuidedParser.init "RM 5\nTotal: RM 5".toList "x".toList [])
        "total".toList "p".toList
    ∧ (anchorInLine "tot".toList "Total: RM 5".toList = true
        ↔ lowerStr "tot".toList <:+: lowerStr "Total: RM 5".toList) :=
  C5_anchor_case_insensitive (fun _ _ => none)
    (GuidedParser.init "RM 5\nTotal: RM 5".toList "x".toList [])
    "TOTAL".toList "total".toList "tot".toList "Total: RM 5".toList
    "p".toList (by decide)

/-- C6: the constructor's line list consists of the newline-separated
pieces of the OCR text, stripped, with exactly the non-empty results kept
in their original order; and the scan result is determined solely by the
earliest line of that list containing the anchor case-insensitively. -/
theorem C6_lines_and_first_anchor_scan
    (reSearch : List Char → List Char → Option (List Char))
    (ocr insurer anchor pattern : List Char) (df : List RuleRow) :
    (GuidedParser.init ocr insurer df).lines.Sublist
        ((ocr.splitOn '\n').map pyStrip)
    ∧ (GuidedParser.init ocr insurer df).lines.all
        (fun l => pyStrip l == l && !l.isEmpty) = true
    ∧ ((ocr.splitOn '\n').map pyStrip).all
        (fun l => l.isEmpty ||
          (GuidedParser.init ocr insurer df).lines.contains l) = true
    ∧ GuidedParser.extract_from_lines reSearch
        (GuidedParser.init ocr insurer df) anchor pattern
      = ((GuidedParser.init ocr insurer df).lines.find?
            (anchorInLine anchor)).map
          (fun l => (reSearch pattern l).getD l) := by
  have hlines : (GuidedParser.init ocr insurer df).lines = parserLines ocr := rfl
  refine ⟨?_, ?_, ?_, ?_⟩
  · rw [hlines]
    exact List.filter_sublist _
  · rw [hlines, List.all_eq_true]
    intro l hl
    rcases List.mem_filter.mp hl with ⟨hmem, hne⟩
    rcases List.mem_map.mp hmem with ⟨x, _, hx⟩
    have hstrip : pyStrip l = l := by
      rw [← hx]
      exact pyStrip_idem x
    simp [hstrip, Bool.not_eq_true'] at hne ⊢
    intro hcontra
    rw [hcontra] at hne
    exact hne rfl
  · rw [hlines, List.all_eq_true]
    intro l hl
    by_cases he : l.isEmpty
    · simp [he]
    · have hmem2 : l ∈ parserLines ocr := by
        unfold parserLines
        exact List.mem_filter.mpr ⟨hl, by simp [he]⟩
      simpa [he, contains_iff_mem] using hmem2
  · unfold GuidedParser.extract_from_lines
    rw [extractScan_eq_find]

/-- C7's row predicate, phrased from the spec: the row's Insurer value
equals the queried insurer name up to letter case. -/
def rowInsurerEqUpToCase (name : List Char) (r : RuleRow) : Bool :=
  r.insurer.any (fun i => lowerStr i == lowerStr name)

/-- C7: `get_rules_for_insurer` returns exactly the rows whose Insurer
column equals the queried name up to letter case, in table order, and
`None` when the table holds no such row. -/
theorem C7_rules_query_characterization (df : List RuleRow) (name : List Char) :
    RuleLoader.get_rules_for_insurer df name
      = if df.filter (rowInsurerEqUpToCase name) = [] then none
        else some (df.filter (rowInsurerEqUpToCase name)) := by
  have hpred : rowInsurerEqUpToCase name = RuleLoader.insurerMatchesRow name := by
    funext r
    unfold rowInsurerEqUpToCase RuleLoader.insurerMatchesRow
    cases r.insurer <;> rfl
  rw [hpred]
  unfold RuleLoader.get_rules_for_insurer
  by_cases h : df.filter (RuleLoader.insurerMatchesRow name) = [] <;>
    simp [h, List.isEmpty_iff]

/-- C8: the inventory is append-only: `append_to_inventory` either leaves
the stored table unchanged with `added = False`, or stores the previous
table with the single new row appended at the end with `added = True`. -/
theorem C8_inventory_append_only (df : List InvRow) (row : InvRow) :
    append_to_inventory df row = (df, false)
    ∨ append_to_inventory df row = (df ++ [row], true) := by
  unfold append_to_inventory
  by_cases h : (!df.isEmpty &&
      (df.map InvRow.filename).contains row.filename &&
      (df.map InvRow.system_date).contains row.system_date) = true
  · left
    rw [if_pos h]
  · right
    rw [if_neg h]

theorem validate_insurer_iff (df : List RuleRow) (name : List Char) :
    RuleLoader.validate_insurer df name = true
      ↔ ∃ r ∈ df, RuleLoader.insurerMatchesRow name r = true := by
  unfold RuleLoader.validate_insurer
  rw [contains_iff_mem]
  simp only [List.mem_map, List.mem_dedup, List.mem_filterMap]
  constructor
  · rintro ⟨i, ⟨r, hr, hins⟩, hlow⟩
    refine ⟨r, hr, ?_⟩
    unfold RuleLoader.insurerMatchesRow
    rw [hins]
    exact beq_iff_eq.mpr hlow
  · rintro ⟨r, hr, hm⟩
    unfold RuleLoader.insurerMatchesRow at hm
    cases hins : r.insurer with
    | none =>
      rw [hins] at hm
      exact absurd hm (by simp)
    | some i =>
      rw [hins] at hm
      exact ⟨i, ⟨r, hr, hins⟩, beq_iff_eq.mp hm⟩

theorem get_rules_isSome_iff (df : List RuleRow) (name : List Char) :
    (RuleLoader.get_rules_for_insurer df name).isSome = true
      ↔ ∃ r ∈ df, RuleLoader.insurerMatchesRow name r = true := by
  unfold RuleLoader.get_rules_for_insurer
  by_cases h : df.filter (RuleLoader.insurerMatchesRow name) = []
  · rw [List.filter_eq_nil_iff] at h
    simp only [List.filter_eq_nil_iff.mpr h, List.isEmpty_nil]
    simp only [if_true, Option.isSome_none, Bool.false_eq_true, false_iff]
    rintro ⟨r, hr, hm⟩
    exact h r hr hm
  · have hne : (df.filter (RuleLoader.insurerMatchesRow name)).isEmpty = false := by
      simpa [List.isEmpty_iff] using h
    simp only [hne, Bool.false_eq_true, if_false, Option.isSome_some, true_iff]
    rcases hx : df.filter (RuleLoader.insurerMatchesRow name) with _ | ⟨a, t⟩
    · exact absurd hx h
    · have ha : a ∈ df.filter (RuleLoader.insurerMatchesRow name) := by
        rw [hx]
        exact List.mem_cons_self a t
      rcases List.mem_filter.mp ha with ⟨hmem, hp⟩
      exact ⟨a, hmem, hp⟩

/-- C9: `validate_insurer` answers `True` exactly when
`get_rules_for_insurer` answers with a non-`None` rule list: the two
public queries agree on which insurers are supported. -/
theorem C9_validate_agrees_with_rules (df : List RuleRow) (name : List Char) :
    RuleLoader.validate_insurer df name = true
      ↔ (RuleLoader.get_rules_for_insurer df name).isSome = true :=
  (validate_insurer_iff df name).trans (get_rules_isSome_iff df name).symm

/-- C10: when the existing inventory already holds the new row's filename
among its filename values and its system_date among its system_date
values, the row is not added and the inventory is returned unchanged with
`added = False`; and `append_to_inventory` preserves the invariant that
no two inventory rows share both the filename and the system_date. -/
theorem C10_duplicate_guard_and_key_invariant
    (df df₂ : List InvRow) (row row₂ : InvRow)
    (hf : row.filename ∈ df.map InvRow.filename)
    (hd : row.system_date ∈ df.map InvRow.system_date)
    (hinv : inventoryKeyFree df₂) :
    append_to_inventory df row = (df, false)
    ∧ inventoryKeyFree (append_to_inventory df₂ row₂).1 := by
  constructor
  · unfold append_to_inventory
    have hne : df.isEmpty = false := by
      cases df with
      | nil => simp at hf
      | cons a t => rfl
    have hcf : (df.map InvRow.filename).contains row.filename = true :=
      (contains_iff_mem _ _).mpr hf
    have hcd : (df.map InvRow.system_date).contains row.system_date = true :=
      (contains_iff_mem _ _).mpr hd
    have hcond : (!df.isEmpty &&
        (df.map InvRow.filename).contains row.filename &&
        (df.map InvRow.system_date).contains row.system_date) = true := by
      rw [hne, hcf, hcd]
      rfl
    rw [if_pos hcond]
  · unfold append_to_inventory
    by_cases h : (!df₂.isEmpty &&
        (df₂.map InvRow.filename).contains row₂.filename &&
        (df₂.map InvRow.system_date).contains row₂.system_date) = true
    · rw [if_pos h]
      exact hinv
    · rw [if_neg h]
      unfold inventoryKeyFree at hinv ⊢
      rw [List.pairwise_append]
      refine ⟨hinv, List.pairwise_singleton _ _, ?_⟩
      intro a ha b hb
      have hb2 : b = row₂ := List.mem_singleton.mp hb
      intro hkey
      apply h
      have hne₂ : df₂.isEmpty = false := by
        cases df₂ with
        | nil => simp at ha
        | cons x t => rfl
      unfold sameKey at hkey
      obtain ⟨hfn, hdt⟩ := hkey
      have hfn2 : a.filename = row₂.filename := by
        rw [← hb2]
        exact hfn
      have hdt2 : a.system_date = row₂.system_date := by
        rw [← hb2]
        exact hdt
      have h1 : (df₂.map InvRow.filename).contains row₂.filename = true :=
        (contains_iff_mem _ _).mpr (List.mem_map.mpr ⟨a, ha, hfn2⟩)
      have h2 : (df₂.map InvRow.system_date).contains row₂.system_date = true :=
        (contains_iff_mem _ _).mpr (List.mem_map.mpr ⟨a, ha, hdt2⟩)
      rw [hne₂, h1, h2]
      rfl

theorem C10_duplicate_guard_and_key_invariant_witness :
    append_to_inventory
        [⟨"2026-10-12".toList, "08:00:00".toList, none, "r1.jpg".toList,
          none, none, none⟩]
        ⟨"2026-10-12".toList, "09:00:00".toList, none, "r1.jpg".toList,
          none, none, none⟩
      = ([⟨"2026-10-12".toList, "08:00:00".toList, none, "r1.jpg".toList,
          none, none, none⟩], false)
    ∧ inventoryKeyFree (append_to_inventory []
        ⟨"2026-10-12".toList, "09:00:00".toList, none, "r2.jpg".toList,
          none, none, none⟩).1 :=
  C10_duplicate_guard_and_key_invariant
    [⟨"2026-10-12".toList, "08:00:00".toList, none, "r1.jpg".toList,
      none, none, none⟩]
    []
    ⟨"2026-10-12".toList, "09:00:00".toList, none, "r1.jpg".toList,
      none, none, none⟩
    ⟨"2026-10-12".toList, "09:00:00".toList, none, "r2.jpg".toList,
      none, none, none⟩
    (by decide) (by decide) (by decide)
